import Mathlib

/-!
Shallow embedding of `dropbox_langchain/dropbox_files.py` (class `DropboxLoader`).

The Dropbox SDK, the filesystem, and the external extraction libraries
(PyPDF2 internals, Docx2txt, Unstructured loaders, BeautifulSoup, striprtf)
are modelled as an environment `DbxEnv`; the repository's own control flow,
path classification, dispatch, error handling and state mutation are
translated directly from the Python source.

Python exceptions are modelled by `Exn`; a computation that can raise
returns `Except Exn α`.  Mutations of the loader's `invalid_files`,
`errors` and `progress` lists are modelled by explicit state passing
(`LoaderState`), with `logMessage` emissions accumulated as message lists
and applied in order.
-/

/-- Python exception kinds relevant to this code base.
`dropbox` is `dropbox.exceptions.DropboxException` carrying `error.error`;
the others are built-in Python exceptions. -/
inductive Exn where
  | dropbox (e : String)
  | keyError (k : String)
  | typeError (m : String)
  | nameError (m : String)
  | other (m : String)
deriving DecidableEq, Repr

/-- Severity levels of `LogStatement` (the `Literal['INFO','DEBUG','WARNING']`). -/
inductive LogLevel where
  | INFO
  | DEBUG
  | WARNING
deriving DecidableEq, Repr

/-- The message payload shapes actually passed to `logMessage` in the source. -/
inductive Msg where
  | text (s : String)
  | errFile (e : String) (file : String)
  | errAction (m : String) (action : String) (entity : String)
  | notIndexed (filename : String)
deriving DecidableEq, Repr

/-- `LogStatement(message=..., level=...)`. -/
structure LogStatement where
  message : Msg
  level : LogLevel
deriving DecidableEq, Repr

/-- The three shapes appended to `self.errors` in the source:
`LogStatement`s (via `logMessage` at WARNING), folder-scoped dicts
`{"message": ..., "folder": ...}`, and bare dicts `{"message": ...}` in `load`. -/
inductive ErrorRecord where
  | log (s : LogStatement)
  | folderErr (e : String) (folder : String)
  | loadErr (e : String)
deriving DecidableEq, Repr

/-- The mutable collections of a `DropboxLoader` instance. -/
structure LoaderState where
  invalid_files : List String
  errors : List ErrorRecord
  progress : List LogStatement
deriving DecidableEq, Repr

/-- Collections start empty (`__init__`). -/
def initState : LoaderState := { invalid_files := [], errors := [], progress := [] }

/-- `logMessage`: WARNING additionally appends to `errors`; every call appends
to `progress`. -/
def logMessage (st : LoaderState) (message : Msg) (level : LogLevel) : LoaderState :=
  let st1 :=
    if level = LogLevel.WARNING then
      { st with errors := st.errors ++ [ErrorRecord.log ⟨message, level⟩] }
    else st
  { st1 with progress := st1.progress ++ [⟨message, level⟩] }

/-- Apply a list of `logMessage` emissions in order. -/
def applyLogs (st : LoaderState) (ms : List (Msg × LogLevel)) : LoaderState :=
  ms.foldl (fun st ml => logMessage st ml.1 ml.2) st

/-- Metadata dict of a produced `Document`. -/
structure DocMeta where
  source : String
  kind : String
  page : Option Nat := none
  filename : Option String := none
deriving DecidableEq, Repr

/-- A langchain `Document`. -/
structure Doc where
  page_content : String
  metadata : DocMeta
deriving DecidableEq, Repr

/- ------------------------------------------------------------------ -/
/- Path classification (`pathlib` semantics as used by the source).    -/
/- ------------------------------------------------------------------ -/

/-- Split a character list at every occurrence of `c` (like `str.split`). -/
def splitOnChar (c : Char) : List Char → List (List Char)
  | [] => [[]]
  | a :: rest =>
    let r := splitOnChar c rest
    if a = c then [] :: r
    else
      match r with
      | [] => [[a]]
      | s :: ss => (a :: s) :: ss

/-- `'/'.join(...)` over a list of segments. -/
def joinSlash : List String → String
  | [] => ""
  | [s] => s
  | s :: rest => s ++ "/" ++ joinSlash rest

/-- Nonempty `/`-separated segments of a path. -/
def pathSegments (p : String) : List String :=
  ((splitOnChar '/' p.toList).map String.mk).filter (fun s => s != "")

/-- `pathlib.Path(p).name`: the final nonempty path segment. -/
def pathName (p : String) : String :=
  (pathSegments p).getLastD ""

/-- `pathlib.Path(name).suffix.replace('.', '')` for a bare file name:
the substring after the last dot, empty when there is no dot, when the
only dot leads the name, or when the name ends with a dot. -/
def nameExtension (name : String) : String :=
  let cs := name.toList
  let after := (cs.reverse.takeWhile (fun c => c ≠ '.')).reverse
  if after.length = cs.length then ""
  else if after.length = 0 then ""
  else if after.length + 1 = cs.length then ""
  else String.mk after

/-- `pathlib.Path(file_path).suffix.replace('.', '')` (line 212). -/
def fileExtension (file_path : String) : String :=
  nameExtension (pathName file_path)

/-- `pathlib.Path(file_path).stem` (line 213). -/
def fileStem (file_path : String) : String :=
  let name := pathName file_path
  let ext := nameExtension name
  if ext = "" then name
  else String.mk (name.toList.take (name.toList.length - ext.toList.length - 1))

/-- The source-link computation (lines 216-219): drop the leading character,
join the parent segments, and build the preview URL. -/
def sourceLink (file_path : String) : String :=
  let p1 := String.mk (file_path.toList.drop 1)
  let segs := pathSegments p1
  let folders := joinSlash segs.dropLast
  "https://www.dropbox.com/home/" ++ folders ++ "?preview=" ++ segs.getLastD ""

/-- `ALLOWED_EXTENSIONS` (lines 27-39), verbatim. -/
def ALLOWED_EXTENSIONS : List String :=
  ["md", "htm", "html", "docx", "xls", "xlsx", "pptx", "pdf", "rtf", "txt", "paper"]

/- ------------------------------------------------------------------ -/
/- Environment: the Dropbox SDK, filesystem and extraction libraries.  -/
/- ------------------------------------------------------------------ -/

/-- Faults the PDF reader can raise inside `_load_pdf_file`
(`FileNotDecryptedError`, `binascii.Error`, or any other `Exception`). -/
inductive PdfErr where
  | notDecrypted
  | binascii (m : String)
  | generic (m : String)
deriving DecidableEq, Repr

/-- Behavior of `PdfReader` + per-page `extract_text` on a downloaded file:
the page texts successfully produced before the reader either finishes
(`fault = none`) or raises (`fault = some e`).  A malformed or encrypted
file that fails at open has `pages = []` and a fault. -/
structure PdfOutcome where
  pages : List String
  fault : Option PdfErr
deriving DecidableEq, Repr

/-- Outcome of running a delegate extraction library
(Docx2txt / UnstructuredExcel / UnstructuredPowerPoint / UnstructuredMarkdown)
on the downloaded file: documents, or a raised exception. -/
inductive ExtractOutcome where
  | docs (ds : List Doc)
  | raise (e : Exn)
deriving Repr

/-- Per-remote-file behavior of the storage API and of the downloaded
file's content, as consumed by `_load_file`. -/
structure FileSpec where
  /-- `dbx.files_download_to_file` result: ok, or a `DropboxException` error payload. -/
  download : Except String Unit
  /-- `dbx.files_export_to_file(..., export_format="markdown")` result (paper files). -/
  exportMarkdown : Except String Unit
  /-- `pathlib.Path(download_path).read_text()` result (txt/htm/html/rtf files). -/
  readText : Except Exn String
  /-- PDF reader behavior on this file. -/
  pdf : PdfOutcome
  /-- Delegate extraction-library behavior on this file. -/
  libExtract : ExtractOutcome

/-- The page shape returned by `files_list_folder` / `files_list_folder_continue`. -/
structure Entry where
  isFile : Bool
  name : String
  path_display : String
deriving DecidableEq, Repr

structure Page where
  entries : List Entry
  has_more : Bool
deriving DecidableEq, Repr

structure AccountInfo where
  root_namespace_id : String
deriving DecidableEq, Repr

/-- The keyword arguments assembled for `dropbox.Dropbox(**args)` in `load`. -/
structure DbxArgs where
  oauth2_access_token : String
  oauth2_refresh_token : Option String
  app_key : Option String
  app_secret : Option String
deriving DecidableEq, Repr

/-- The external world: Dropbox SDK endpoints and extraction libraries. -/
structure DbxEnv where
  /-- `dropbox.Dropbox(**args)` followed by `users_get_current_account()`. -/
  personalSession : DbxArgs → Except String AccountInfo
  /-- `dropbox.Dropbox(oauth2_access_token=..., headers=...)` for the team
  namespace, given the token and the account's root namespace id. -/
  teamSession : String → String → Except String Unit
  /-- Per-file behavior. -/
  spec : String → FileSpec
  /-- Result of the `k`-th folder-listing call (`k = 0` is
  `files_list_folder`, `k+1` is `files_list_folder_continue`). -/
  pages : Nat → Except String Page
  /-- `striprtf.rtf_to_text`. -/
  rtfToText : String → String
  /-- `BeautifulSoup(html, "lxml").text`. -/
  soupText : String → String

/- ------------------------------------------------------------------ -/
/- Per-format extraction routines (`_load_*_file`).                    -/
/- ------------------------------------------------------------------ -/

/-- Python `str.strip()`, restricted to the ASCII whitespace characters. -/
def isPyWhitespace (c : Char) : Bool :=
  c = ' ' || c = '\t' || c = '\n' || c = '\r' || c = '\x0b' || c = '\x0c'

def pyStrip (s : String) : String :=
  String.mk (((s.toList.dropWhile isPyWhitespace).reverse.dropWhile isPyWhitespace).reverse)

/-- `_load_text_file`: read, strip, one document; `filename` is the name of
the download path, which is the stem of the remote path. -/
def loadTextFile (env : DbxEnv) (file_path source : String) : Except Exn (List Doc) :=
  match (env.spec file_path).readText with
  | .error e => .error e
  | .ok contents =>
    .ok [{ page_content := pyStrip contents,
           metadata := { source := source, kind := "file",
                         filename := some (fileStem file_path) } }]

/-- `_load_html_file` (via `_get_html_as_string`): soup text, stripped. -/
def loadHtmlFile (env : DbxEnv) (file_path source : String) : Except Exn (List Doc) :=
  match (env.spec file_path).readText with
  | .error e => .error e
  | .ok contents =>
    .ok [{ page_content := pyStrip (env.soupText contents),
           metadata := { source := source, kind := "file" } }]

/-- `_load_rtf_file`: `rtf_to_text`, stripped. -/
def loadRtfFile (env : DbxEnv) (file_path source : String) : Except Exn (List Doc) :=
  match (env.spec file_path).readText with
  | .error e => .error e
  | .ok contents =>
    .ok [{ page_content := pyStrip (env.rtfToText contents),
           metadata := { source := source, kind := "file" } }]

/-- `_normalize_docs`: overwrite `source` and `kind` on every delegate document. -/
def normalizeDocs (ds : List Doc) (source : String) : List Doc :=
  ds.map fun d => { d with metadata := { d.metadata with source := source, kind := "file" } }

/-- `_load_docx_file` / `_load_excel_file` / `_load_pptx_file` / `_load_md_file`:
run the delegate library loader, then normalize. -/
def loadLibFile (env : DbxEnv) (file_path source : String) : Except Exn (List Doc) :=
  match (env.spec file_path).libExtract with
  | .raise e => .error e
  | .docs ds => .ok (normalizeDocs ds source)

/-- The message strings built for `_error_logger` in `_load_pdf_file`. -/
def pdfErrMsg (e : PdfErr) (file_path : String) : String :=
  match e with
  | .notDecrypted =>
    "PyPDF2.errors.FileNotDecryptedError: File has not been decrypted (" ++ file_path ++ ")"
  | .binascii m => m ++ " (" ++ file_path ++ ")"
  | .generic m => m ++ " (" ++ file_path ++ ")"

/-- The documents accumulated by the page loop of `_load_pdf_file`:
one per page, `page` metadata `i + 1` for the `i`-th (0-based) page. -/
def pdfDocs (ps : List String) (source : String) : List Doc :=
  ps.enum.map fun ia =>
    { page_content := ia.2,
      metadata := { source := source, kind := "file", page := some (ia.1 + 1) } }

/-- `_load_pdf_file`: build per-page documents; every fault of the reader is
caught inside the routine (`except ... except Exception`), logged through
`_error_logger` (a WARNING) plus a `not_indexed` INFO message, and the
documents accumulated so far are returned.  The routine never raises. -/
def loadPdfFileM (env : DbxEnv) (file_path source : String) :
    List Doc × List (Msg × LogLevel) :=
  let o := (env.spec file_path).pdf
  let docs := pdfDocs o.pages source
  match o.fault with
  | none => (docs, [])
  | some e =>
    (docs, [(Msg.errAction (pdfErrMsg e file_path) "read_pdf" "file", LogLevel.WARNING),
            (Msg.notIndexed file_path, LogLevel.INFO)])

/- ------------------------------------------------------------------ -/
/- `_load_file` and the batch loops.                                   -/
/- ------------------------------------------------------------------ -/

/-- Python `str.replace('\x00', ' ')`. -/
def replaceNullChar (s : String) : String :=
  String.mk (s.toList.map fun c => if c = '\x00' then ' ' else c)

/-- The post-processing loop of `_load_file` (lines 270-272). -/
def nullReplaceDoc (d : Doc) : Doc :=
  { d with page_content := replaceNullChar d.page_content }

/-- The extension dispatch inside the download `try` block of `_load_file`
(lines 240-262): an `if` on txt followed by an `if/elif` chain.  The two
chains have disjoint conditions, so this single chain is equivalent.
Returns the routine's result and the messages it logged (only the PDF
routine logs). -/
def runRoutine (env : DbxEnv) (p ext source : String) :
    Except Exn (List Doc) × List (Msg × LogLevel) :=
  if ext = "txt" then (loadTextFile env p source, [])
  else if ext = "htm" ∨ ext = "html" then (loadHtmlFile env p source, [])
  else if ext = "pdf" then
    let (ds, ms) := loadPdfFileM env p source
    (.ok ds, ms)
  else if ext = "docx" then (loadLibFile env p source, [])
  else if ext = "xlsx" ∨ ext = "xls" then (loadLibFile env p source, [])
  else if ext = "pptx" then (loadLibFile env p source, [])
  else if ext = "md" then (loadLibFile env p source, [])
  else if ext = "rtf" then (loadRtfFile env p source, [])
  else (.ok [], [])

/-- `except dropbox.exceptions.DropboxException as error:` around the body of
`_load_file`'s `try`: a Dropbox fault is converted into a WARNING log message
referencing the file; `file_documents` keeps its pre-`try` value `[]`;
any other exception propagates. -/
def catchDbx (p : String) (r : Except Exn (List Doc) × List (Msg × LogLevel)) :
    Except Exn (List Doc) × List (Msg × LogLevel) :=
  match r with
  | (.ok ds, ms) => (.ok ds, ms)
  | (.error (.dropbox e), ms) => (.ok [], ms ++ [(Msg.errFile e p, LogLevel.WARNING)])
  | (.error ex, ms) => (.error ex, ms)

/-- The DEBUG message logged on entry to `_load_file` (line 206). -/
def procLog (p : String) : Msg × LogLevel :=
  (Msg.text ("Processing (" ++ p ++ ")"), LogLevel.DEBUG)

/-- The download-plus-dispatch `try` blocks of `_load_file` (lines 222-265):
for paper files export then the markdown routine, otherwise download then
the extension dispatch; `DropboxException`s anywhere inside are converted
into a WARNING referencing the file. -/
def loadFileBody (env : DbxEnv) (p ext source : String) :
    Except Exn (List Doc) × List (Msg × LogLevel) :=
  if ext = "paper" then
    match (env.spec p).exportMarkdown with
    | .error e => (.ok [], [(Msg.errFile e p, LogLevel.WARNING)])
    | .ok _ => catchDbx p (loadLibFile env p source, [])
  else
    match (env.spec p).download with
    | .error e => (.ok [], [(Msg.errFile e p, LogLevel.WARNING)])
    | .ok _ => catchDbx p (runRoutine env p ext source)

/-- `_load_file` (lines 205-274).  Note the ineligible branch (line 268)
executes `self.invalid_files.append()` with no argument, which raises
`TypeError`, skipping the null-byte pass. -/
def loadFileM (env : DbxEnv) (p : String) : Except Exn (List Doc) × List (Msg × LogLevel) :=
  let dbg : Msg × LogLevel := procLog p
  let ext := fileExtension p
  let source := sourceLink p
  if ext ∈ ALLOWED_EXTENSIONS then
    match loadFileBody env p ext source with
    | (.ok ds, ms) => (.ok (ds.map nullReplaceDoc), dbg :: ms)
    | (.error ex, ms) => (.error ex, dbg :: ms)
  else
    (.error (.typeError "list.append() takes exactly one argument (0 given)"), [dbg])

/-- State-passing version of `_load_file`. -/
def loadFile (env : DbxEnv) (st : LoaderState) (p : String) :
    Except Exn (List Doc) × LoaderState :=
  let rms := loadFileM env p
  (rms.1, applyLogs st rms.2)

/-- The `for file_path in file_paths` loop of `_load_files_from_paths`:
concatenate per-file documents; an uncaught exception aborts the loop. -/
def loadPathsLoop (env : DbxEnv) : List String → List Doc →
    Except Exn (List Doc) × List (Msg × LogLevel)
  | [], acc => (.ok acc, [])
  | p :: rest, acc =>
    match loadFileM env p with
    | (.ok ds, ms) =>
      let rms := loadPathsLoop env rest (acc ++ ds)
      (rms.1, ms ++ rms.2)
    | (.error ex, ms) => (.error ex, ms)

/-- `_load_files_from_paths` (lines 329-340). -/
def loadFilesFromPathsM (env : DbxEnv) (file_paths : List String) :
    Except Exn (List Doc) × List (Msg × LogLevel) :=
  let dbg : Msg × LogLevel :=
    (Msg.text ("Load files from file paths (count: " ++ toString file_paths.length ++ ")"),
     LogLevel.DEBUG)
  let rms := loadPathsLoop env file_paths []
  (rms.1, dbg :: rms.2)

/-- State-passing version of `_load_files_from_paths`. -/
def loadFilesFromPaths (env : DbxEnv) (st : LoaderState) (file_paths : List String) :
    Except Exn (List Doc) × LoaderState :=
  let rms := loadFilesFromPathsM env file_paths
  (rms.1, applyLogs st rms.2)

/- ------------------------------------------------------------------ -/
/- Folder enumeration (`_load_files_from_folder_path`).                -/
/- ------------------------------------------------------------------ -/

/-- Entry partitioning inside the page loop (lines 307-315): directory
entries are ignored; file entries are classified by the suffix of
`file.name`; eligible `path_display`s accumulate, ineligible ones are
appended to `invalid_files`. -/
def processEntry (acc : List String × LoaderState) (entry : Entry) :
    List String × LoaderState :=
  if entry.isFile then
    if nameExtension entry.name ∈ ALLOWED_EXTENSIONS then
      (acc.1 ++ [entry.path_display], acc.2)
    else
      (acc.1, { acc.2 with invalid_files := acc.2.invalid_files ++ [entry.path_display] })
  else acc

/-- The `while found_all_records is False` pagination loop (lines 297-318).
`fuel` bounds the number of listing calls; `none` means the loop did not
finish within `fuel` calls (the Python loop would still be running).
A listing fault stops the loop with the state mutated so far. -/
def enumFolder (env : DbxEnv) : Nat → Nat → List String → LoaderState →
    Option (Except String (List String) × LoaderState)
  | 0, _, _, _ => none
  | fuel + 1, k, paths, st =>
    match env.pages k with
    | .error e => some (.error e, st)
    | .ok page =>
      let acc := page.entries.foldl processEntry (paths, st)
      if page.has_more then enumFolder env fuel (k + 1) acc.1 acc.2
      else some (.ok acc.1, acc.2)

/-- `_load_files_from_folder_path` (lines 285-327).  The `try` wraps both the
pagination loop and the call to `_load_files_from_paths`; a
`DropboxException` from either is recorded as a folder-scoped error record
and `file_documents` keeps its pre-`try` value `[]`.  Other exceptions
propagate. -/
def loadFilesFromFolderPath (env : DbxEnv) (st : LoaderState) (folder_path : String)
    (fuel : Nat) : Option (Except Exn (List Doc) × LoaderState) :=
  let st0 := logMessage st (Msg.text ("Load files from folder path (" ++ folder_path ++ ")"))
    LogLevel.DEBUG
  match enumFolder env fuel 0 [] st0 with
  | none => none
  | some (.error e, st1) =>
    some (.ok [], { st1 with errors := st1.errors ++ [ErrorRecord.folderErr e folder_path] })
  | some (.ok file_paths, st1) =>
    match loadFilesFromPaths env st1 file_paths with
    | (.ok ds, st2) => some (.ok ds, st2)
    | (.error (.dropbox e), st2) =>
      some (.ok [], { st2 with errors := st2.errors ++ [ErrorRecord.folderErr e folder_path] })
    | (.error ex, st2) => some (.error ex, st2)

/- ------------------------------------------------------------------ -/
/- `load` and construction.                                            -/
/- ------------------------------------------------------------------ -/

/-- The auth payload: presence/absence of the four token keys the source
reads (`'access'`, `'access_token'`, `'refresh'`, `'refresh_token'`). -/
structure Auth where
  access : Option String
  access_token : Option String
  refresh : Option String
  refresh_token : Option String
deriving DecidableEq, Repr

/-- Loader configuration after `__init__`. -/
structure LoaderConfig where
  auth : Auth
  app_key : Option String
  app_secret : Option String
  folder_path : Option String
  file_paths : Option (List String)
  file_path : Option String
  is_team_folder : Bool
deriving DecidableEq, Repr

/-- `__init__` (lines 59-99): target-mode precedence folder > list > single. -/
def initLoader (auth : Auth) (app_key app_secret : Option String)
    (folder_path : Option String) (file_paths : Option (List String))
    (file_path : Option String) (is_team_folder : Bool) : LoaderConfig :=
  { auth := auth, app_key := app_key, app_secret := app_secret,
    folder_path := folder_path,
    file_paths := if folder_path.isSome then none else file_paths,
    file_path := if folder_path.isSome || file_paths.isSome then none else file_path,
    is_team_folder := is_team_folder }

/-- The net effect of lines 420-426: `args` holds `access_token` when that
key is present, else `access` when present, and is otherwise unbound. -/
def tokenArg (auth : Auth) : Option String :=
  auth.access_token.orElse fun _ => auth.access

/-- Net effect of lines 431-436 for the refresh token. -/
def refreshArg (auth : Auth) : Option String :=
  auth.refresh_token.orElse fun _ => auth.refresh

/-- The keyword arguments passed to `dropbox.Dropbox(**args)` (lines 420-438);
`none` when neither access key is present, in which case `args` is unbound. -/
def mkArgs (cfg : LoaderConfig) : Option DbxArgs :=
  match tokenArg cfg.auth with
  | none => none
  | some tok =>
    if cfg.app_key.isSome && cfg.app_secret.isSome then
      some { oauth2_access_token := tok, oauth2_refresh_token := refreshArg cfg.auth,
             app_key := cfg.app_key, app_secret := cfg.app_secret }
    else
      some { oauth2_access_token := tok, oauth2_refresh_token := none,
             app_key := none, app_secret := none }

/-- `load` (lines 409-484).  Faithful points: with neither access key the
reference to `args` raises `UnboundLocalError`; the team-session block reads
`self.auth['access_token']` directly (line 456), raising `KeyError` when that
key is absent; each session `try` catches only `DropboxException`, appends a
bare error record and returns `[]`; the dispatch `try` catches
`DropboxException` and appends a bare error record. -/
def load (env : DbxEnv) (cfg : LoaderConfig) (st : LoaderState) (fuel : Nat) :
    Option (Except Exn (List Doc) × LoaderState) :=
  match mkArgs cfg with
  | none =>
    some (.error (.nameError "cannot access local variable args"), st)
  | some args =>
    match env.personalSession args with
    | .error e => some (.ok [], { st with errors := st.errors ++ [ErrorRecord.loadErr e] })
    | .ok account_info =>
      match cfg.auth.access_token with
      | none => some (.error (.keyError "access_token"), st)
      | some tok =>
        match env.teamSession tok account_info.root_namespace_id with
        | .error e => some (.ok [], { st with errors := st.errors ++ [ErrorRecord.loadErr e] })
        | .ok _ =>
          match cfg.folder_path with
          | some fp =>
            match loadFilesFromFolderPath env st fp fuel with
            | none => none
            | some (.ok ds, st1) => some (.ok ds, st1)
            | some (.error (.dropbox e), st1) =>
              some (.ok [], { st1 with errors := st1.errors ++ [ErrorRecord.loadErr e] })
            | some (.error ex, st1) => some (.error ex, st1)
          | none =>
            match cfg.file_paths with
            | some ps =>
              match loadFilesFromPaths env st ps with
              | (.ok ds, st1) => some (.ok ds, st1)
              | (.error (.dropbox e), st1) =>
                some (.ok [], { st1 with errors := st1.errors ++ [ErrorRecord.loadErr e] })
              | (.error ex, st1) => some (.error ex, st1)
            | none =>
              match cfg.file_path with
              | some p =>
                match loadFile env st p with
                | (.ok ds, st1) => some (.ok ds, st1)
                | (.error (.dropbox e), st1) =>
                  some (.ok [], { st1 with errors := st1.errors ++ [ErrorRecord.loadErr e] })
                | (.error ex, st1) => some (.error ex, st1)
              | none =>
                some (.error (.typeError "argument should be a str, not NoneType"),
                  applyLogs st [(Msg.text "Processing (None)", LogLevel.DEBUG)])

/- ------------------------------------------------------------------ -/
/- Derived notions and concrete instances used by the theorems.        -/
/- ------------------------------------------------------------------ -/

/-- The error records produced by a list of `logMessage` emissions:
exactly the WARNING entries. -/
def warnRecords (ms : List (Msg × LogLevel)) : List ErrorRecord :=
  ms.filterMap fun m =>
    if m.2 = LogLevel.WARNING then some (ErrorRecord.log ⟨m.1, m.2⟩) else none

/-- Concatenation of per-element lists, in order. -/
def concatMap (f : α → List β) : List α → List β
  | [] => []
  | a :: r => f a ++ concatMap f r

/-- A remote file on which every operation succeeds. -/
def okFileSpec : FileSpec :=
  { download := .ok (), exportMarkdown := .ok (), readText := .ok "hello",
    pdf := { pages := [], fault := none }, libExtract := .docs [] }

/-- An auth payload carrying only the current-style access token. -/
def baseAuth : Auth :=
  { access := none, access_token := some "tok", refresh := none, refresh_token := none }

/-- An environment where every call succeeds. -/
def baseEnv : DbxEnv :=
  { personalSession := fun _ => .ok { root_namespace_id := "ns" },
    teamSession := fun _ _ => .ok (),
    spec := fun _ => okFileSpec,
    pages := fun _ => .ok { entries := [], has_more := false },
    rtfToText := fun s => s,
    soupText := fun s => s }

/-- Loader construction shorthand (no app credentials, personal folder). -/
def mkCfg (auth : Auth) (folder : Option String) (files : Option (List String))
    (file : Option String) : LoaderConfig :=
  initLoader auth none none folder files file false

/-- Folder run where the second file's download faults. -/
def c1Env : DbxEnv :=
  { baseEnv with
    spec := fun p =>
      if p = "/b.txt" then { okFileSpec with download := .error "fault" } else okFileSpec,
    pages := fun _ => .ok
      { entries := ["/a.txt", "/b.txt", "/c.txt"].map fun p =>
          { isFile := true, name := pathName p, path_display := p },
        has_more := false } }

/-- The documents a clean text file yields in `c1Env`. -/
def c1D (p : String) : List Doc :=
  [{ page_content := "hello",
     metadata := { source := sourceLink p, kind := "file", filename := some (fileStem p) } }]

/-- Environment where the docx extraction library raises a generic fault. -/
def c3Env : DbxEnv :=
  { baseEnv with
    spec := fun _ => { okFileSpec with libExtract := .raise (.other "boom") } }

/-- Environment where the docx extraction library raises a `DropboxException`. -/
def c3DbxEnv : DbxEnv :=
  { baseEnv with
    spec := fun _ => { okFileSpec with libExtract := .raise (.dropbox "lib_fault") } }

/-- Environment whose second listing call faults mid-enumeration. -/
def c4Env : DbxEnv :=
  { baseEnv with
    pages := fun k =>
      if k = 0 then .ok
        { entries := [{ isFile := true, name := "a.txt", path_display := "/a.txt" }],
          has_more := true }
      else .error "cursor_fault" }

/-- Environment whose personal-session establishment faults. -/
def c5Env : DbxEnv :=
  { baseEnv with personalSession := fun _ => .error "expired_access_token" }

/-- Environment where a text file's content contains a null byte. -/
def c6Env : DbxEnv :=
  { baseEnv with spec := fun _ => { okFileSpec with readText := .ok "a\x00b" } }

/-- The record `_load_file` produces in `c6Env` for `"/n.txt"`: the null
byte of the content has become a space. -/
def c6Doc : Doc :=
  { page_content := "a b",
    metadata := { source := sourceLink "/n.txt", kind := "file",
                  filename := some (fileStem "/n.txt") } }

/-- Environment where the PDF reader yields two pages. -/
def c8Env : DbxEnv :=
  { baseEnv with
    spec := fun _ => { okFileSpec with pdf := { pages := ["page one", "page two"], fault := none } } }

/-- Environment where the PDF reader faults at open (encrypted file). -/
def c8BadEnv : DbxEnv :=
  { baseEnv with
    spec := fun _ => { okFileSpec with pdf := { pages := [], fault := some .notDecrypted } } }

/-- An auth payload carrying only the legacy-style access token. -/
def legacyAuth : Auth :=
  { access := some "tok", access_token := none, refresh := none, refresh_token := none }

/-- An auth payload carrying neither access key. -/
def emptyAuth : Auth :=
  { access := none, access_token := none, refresh := none, refresh_token := none }

/- ------------------------------------------------------------------ -/
/- Lemmas about logging, state and the batch loops.                    -/
/- ------------------------------------------------------------------ -/

theorem logMessage_invalid_files (st : LoaderState) (m : Msg) (l : LogLevel) :
    (logMessage st m l).invalid_files = st.invalid_files := by
  simp only [logMessage]
  split <;> rfl

theorem logMessage_errors (st : LoaderState) (m : Msg) (l : LogLevel) :
    (logMessage st m l).errors =
      st.errors ++ (if l = LogLevel.WARNING then [ErrorRecord.log ⟨m, l⟩] else []) := by
  simp only [logMessage]
  split <;> simp_all

theorem applyLogs_cons (st : LoaderState) (m : Msg × LogLevel) (ms : List (Msg × LogLevel)) :
    applyLogs st (m :: ms) = applyLogs (logMessage st m.1 m.2) ms := rfl

theorem applyLogs_invalid_files (ms : List (Msg × LogLevel)) (st : LoaderState) :
    (applyLogs st ms).invalid_files = st.invalid_files := by
  induction ms generalizing st with
  | nil => rfl
  | cons m ms ih => rw [applyLogs_cons, ih, logMessage_invalid_files]

theorem applyLogs_errors (ms : List (Msg × LogLevel)) (st : LoaderState) :
    (applyLogs st ms).errors = st.errors ++ warnRecords ms := by
  induction ms generalizing st with
  | nil => simp [applyLogs, warnRecords]
  | cons m ms ih =>
    rw [applyLogs_cons, ih, logMessage_errors]
    by_cases h : m.2 = LogLevel.WARNING <;>
      simp [warnRecords, List.filterMap_cons, h]

theorem warnRecords_append (ms ns : List (Msg × LogLevel)) :
    warnRecords (ms ++ ns) = warnRecords ms ++ warnRecords ns := by
  simp [warnRecords, List.filterMap_append]

theorem warnRecords_eq_nil (ms : List (Msg × LogLevel))
    (h : ∀ m ∈ ms, m.2 ≠ LogLevel.WARNING) : warnRecords ms = [] := by
  induction ms with
  | nil => rfl
  | cons m ms ih =>
    rw [warnRecords, List.filterMap_cons]
    rw [if_neg (h m (List.mem_cons_self m ms))]
    exact ih fun x hx => h x (List.mem_cons_of_mem m hx)

/-- A run of `_load_files_from_paths`'s loop over files that all load
cleanly: documents concatenate in path order, messages concatenate in
path order. -/
theorem loadPathsLoop_all_ok (env : DbxEnv) (D : String → List Doc)
    (L : String → List (Msg × LogLevel)) (ps : List String)
    (h : ∀ p ∈ ps, loadFileM env p = (.ok (D p), L p)) (acc : List Doc) :
    loadPathsLoop env ps acc = (.ok (acc ++ concatMap D ps), concatMap L ps) := by
  induction ps generalizing acc with
  | nil => simp [loadPathsLoop, concatMap]
  | cons p ps ih =>
    rw [loadPathsLoop, h p (List.mem_cons_self p ps)]
    dsimp only
    rw [ih (fun q hq => h q (List.mem_cons_of_mem p hq)) (acc ++ D p)]
    simp [concatMap]

/-- Splitting the loop after a clean prefix. -/
theorem loadPathsLoop_split (env : DbxEnv) (D : String → List Doc)
    (L : String → List (Msg × LogLevel)) (ps1 ps2 : List String)
    (h : ∀ p ∈ ps1, loadFileM env p = (.ok (D p), L p)) (acc : List Doc) :
    loadPathsLoop env (ps1 ++ ps2) acc =
      ((loadPathsLoop env ps2 (acc ++ concatMap D ps1)).1,
       concatMap L ps1 ++ (loadPathsLoop env ps2 (acc ++ concatMap D ps1)).2) := by
  induction ps1 generalizing acc with
  | nil => simp [concatMap]
  | cons p ps1 ih =>
    rw [List.cons_append, loadPathsLoop, h p (List.mem_cons_self p ps1)]
    dsimp only
    rw [ih (fun q hq => h q (List.mem_cons_of_mem p hq)) (acc ++ D p)]
    simp [concatMap]

/-- `_load_file` on an eligible, non-paper path whose download raises a
`DropboxException`: no documents, one DEBUG message, one WARNING message
referencing the path. -/
theorem loadFileM_download_fault (env : DbxEnv) (p : String) (e : String)
    (h1 : fileExtension p ∈ ALLOWED_EXTENSIONS) (h2 : fileExtension p ≠ "paper")
    (h3 : (env.spec p).download = .error e) :
    loadFileM env p = (.ok [], [procLog p, (Msg.errFile e p, LogLevel.WARNING)]) := by
  simp only [loadFileM, loadFileBody]
  rw [if_pos h1, if_neg h2, h3]
  rfl

theorem processEntry_errors (acc : List String × LoaderState) (entry : Entry) :
    (processEntry acc entry).2.errors = acc.2.errors := by
  simp only [processEntry]
  split
  · split <;> rfl
  · rfl

theorem foldl_processEntry_errors (es : List Entry) (acc : List String × LoaderState) :
    (es.foldl processEntry acc).2.errors = acc.2.errors := by
  induction es generalizing acc with
  | nil => rfl
  | cons entry es ih => rw [List.foldl_cons, ih, processEntry_errors]

/-- A page consisting only of eligible files accumulates exactly their
`path_display`s, in order, without touching the loader state. -/
theorem foldl_processEntry_all_eligible (ps : List String)
    (h : ∀ p ∈ ps, fileExtension p ∈ ALLOWED_EXTENSIONS)
    (paths : List String) (st : LoaderState) :
    (ps.map fun p => ({ isFile := true, name := pathName p, path_display := p } : Entry)).foldl
        processEntry (paths, st) = (paths ++ ps, st) := by
  induction ps generalizing paths with
  | nil => simp
  | cons p ps ih =>
    simp only [List.map_cons, List.foldl_cons]
    have he : nameExtension (pathName p) ∈ ALLOWED_EXTENSIONS :=
      h p (List.mem_cons_self p ps)
    have hp : processEntry (paths, st) { isFile := true, name := pathName p, path_display := p } =
        (paths ++ [p], st) := by
      simp [processEntry, he]
    rw [hp, ih (fun q hq => h q (List.mem_cons_of_mem p hq)) (paths ++ [p])]
    simp

/-- If the first `j` listing calls (from index `k`) succeed with
`has_more` pages and the next call raises, the pagination loop stops with
that fault, and entry partitioning never touches `errors`. -/
theorem enumFolder_fault (env : DbxEnv) (e : String) :
    ∀ (j fuel k : Nat) (paths : List String) (st : LoaderState),
      (∀ i < j, ∃ pg, env.pages (k + i) = .ok pg ∧ pg.has_more = true) →
      env.pages (k + j) = .error e → j < fuel →
      ∃ stx, enumFolder env fuel k paths st = some (.error e, stx) ∧
        stx.errors = st.errors := by
  intro j
  induction j with
  | zero =>
    intro fuel k paths st _ herr hfuel
    cases fuel with
    | zero => omega
    | succ f =>
      refine ⟨st, ?_, rfl⟩
      have hk : env.pages k = .error e := by simpa using herr
      simp only [enumFolder, hk]
  | succ j ih =>
    intro fuel k paths st hok herr hfuel
    cases fuel with
    | zero => omega
    | succ f =>
      obtain ⟨pg, hpg, hmore⟩ := hok 0 (Nat.succ_pos j)
      have hpg2 : env.pages k = .ok pg := by simpa using hpg
      have hok2 : ∀ i < j, ∃ pg2, env.pages (k + 1 + i) = .ok pg2 ∧ pg2.has_more = true := by
        intro i hi
        obtain ⟨pg2, h1, h2⟩ := hok (i + 1) (Nat.succ_lt_succ hi)
        refine ⟨pg2, ?_, h2⟩
        rw [show k + 1 + i = k + (i + 1) from by omega]
        exact h1
      have herr2 : env.pages (k + 1 + j) = .error e := by
        rw [show k + 1 + j = k + (j + 1) from by omega]
        exact herr
      obtain ⟨stx, heq, herrs⟩ := ih f (k + 1) (pg.entries.foldl processEntry (paths, st)).1
        (pg.entries.foldl processEntry (paths, st)).2 hok2 herr2 (Nat.lt_of_succ_lt_succ hfuel)
      refine ⟨stx, ?_, ?_⟩
      · simp only [enumFolder, hpg2, hmore, if_true]
        exact heq
      · rw [herrs, foldl_processEntry_errors]

theorem warnRecords_cons_debug (m : Msg) (ms : List (Msg × LogLevel)) :
    warnRecords ((m, LogLevel.DEBUG) :: ms) = warnRecords ms := rfl

theorem warnRecords_cons_warning (m : Msg) (ms : List (Msg × LogLevel)) :
    warnRecords ((m, LogLevel.WARNING) :: ms) =
      ErrorRecord.log ⟨m, LogLevel.WARNING⟩ :: warnRecords ms := rfl

theorem warnRecords_procLogs (ps : List String) :
    warnRecords (concatMap (fun p => [procLog p]) ps) = [] := by
  induction ps with
  | nil => rfl
  | cons p ps ih =>
    rw [concatMap, warnRecords_append, ih]
    rfl

/-- Claim C1: For every folder-mode load over a sequence of eligible file
paths in which exactly one file's download raises a `DropboxException`,
`load` still returns the concatenated records of the other files (iteration
continues past the fault) and exactly one error record, a WARNING
referencing the failed path, is appended to `errors`. -/
theorem c1_partial_failure_isolation
    (env : DbxEnv) (cfg : LoaderConfig) (fp : String)
    (args : DbxArgs) (acct : AccountInfo) (tok : String)
    (pre post : List String) (pk : String) (e : String)
    (D : String → List Doc) (fuel : Nat)
    (hargs : mkArgs cfg = some args)
    (hper : env.personalSession args = .ok acct)
    (htok : cfg.auth.access_token = some tok)
    (hteam : env.teamSession tok acct.root_namespace_id = .ok ())
    (hfp : cfg.folder_path = some fp)
    (hpage : env.pages 0 = .ok { entries := (pre ++ pk :: post).map fun p =>
        { isFile := true, name := pathName p, path_display := p }, has_more := false })
    (hfuel : 0 < fuel)
    (helig : ∀ p ∈ pre ++ pk :: post, fileExtension p ∈ ALLOWED_EXTENSIONS)
    (hok : ∀ p ∈ pre ++ post, loadFileM env p = (.ok (D p), [procLog p]))
    (hpk2 : fileExtension pk ≠ "paper")
    (hpk3 : (env.spec pk).download = .error e) :
    ∃ stF, load env cfg initState fuel =
        some (.ok (concatMap D pre ++ concatMap D post), stF) ∧
      stF.errors = [ErrorRecord.log ⟨Msg.errFile e pk, LogLevel.WARNING⟩] := by
  cases fuel with
  | zero => omega
  | succ f =>
    have hpk1 : fileExtension pk ∈ ALLOWED_EXTENSIONS :=
      helig pk (by simp)
    have hok_pre : ∀ p ∈ pre, loadFileM env p = (.ok (D p), [procLog p]) :=
      fun p hp => hok p (List.mem_append_left post hp)
    have hok_post : ∀ p ∈ post, loadFileM env p = (.ok (D p), [procLog p]) :=
      fun p hp => hok p (List.mem_append_right pre hp)
    have hloop : loadPathsLoop env (pre ++ pk :: post) [] =
        (.ok (concatMap D pre ++ concatMap D post),
         concatMap (fun p => [procLog p]) pre ++
           procLog pk :: (Msg.errFile e pk, LogLevel.WARNING) ::
             concatMap (fun p => [procLog p]) post) := by
      rw [loadPathsLoop_split env D (fun p => [procLog p]) pre (pk :: post) hok_pre []]
      rw [loadPathsLoop, loadFileM_download_fault env pk e hpk1 hpk2 hpk3]
      dsimp only
      rw [loadPathsLoop_all_ok env D (fun p => [procLog p]) post hok_post]
      simp
    have hwarn : warnRecords
        (concatMap (fun p => [procLog p]) pre ++
          procLog pk :: (Msg.errFile e pk, LogLevel.WARNING) ::
            concatMap (fun p => [procLog p]) post) =
        [ErrorRecord.log ⟨Msg.errFile e pk, LogLevel.WARNING⟩] := by
      rw [warnRecords_append, warnRecords_procLogs, List.nil_append]
      rw [show procLog pk = (Msg.text ("Processing (" ++ pk ++ ")"), LogLevel.DEBUG) from rfl]
      rw [warnRecords_cons_debug, warnRecords_cons_warning, warnRecords_procLogs]
    have henum : enumFolder env (f + 1) 0 []
        (logMessage initState
          (Msg.text ("Load files from folder path (" ++ fp ++ ")")) LogLevel.DEBUG) =
        some (.ok (pre ++ pk :: post),
          logMessage initState
            (Msg.text ("Load files from folder path (" ++ fp ++ ")")) LogLevel.DEBUG) := by
      simp only [enumFolder, hpage]
      rw [foldl_processEntry_all_eligible (pre ++ pk :: post) helig []]
      simp
    refine ⟨applyLogs
        (logMessage initState
          (Msg.text ("Load files from folder path (" ++ fp ++ ")")) LogLevel.DEBUG)
        ((Msg.text ("Load files from file paths (count: " ++
            toString (pre ++ pk :: post).length ++ ")"), LogLevel.DEBUG) ::
          (concatMap (fun p => [procLog p]) pre ++
            procLog pk :: (Msg.errFile e pk, LogLevel.WARNING) ::
              concatMap (fun p => [procLog p]) post)), ?_, ?_⟩
    · simp only [load, hargs, hper, htok, hteam, hfp, loadFilesFromFolderPath]
      rw [henum]
      simp only [loadFilesFromPaths, loadFilesFromPathsM]
      rw [hloop]
    · rw [applyLogs_errors]
      rw [show (logMessage initState
          (Msg.text ("Load files from folder path (" ++ fp ++ ")")) LogLevel.DEBUG).errors = []
        from rfl]
      rw [List.nil_append, warnRecords_cons_debug]
      exact hwarn

/-- Witness for C1: a concrete three-file folder whose middle file's
download faults; the two other records survive and exactly one WARNING
error record referencing the middle path is produced. -/
theorem c1_partial_failure_isolation_witness :
    ∃ stF, load c1Env (mkCfg baseAuth (some "") none none) initState 1 =
        some (.ok (concatMap c1D ["/a.txt"] ++ concatMap c1D ["/c.txt"]), stF) ∧
      stF.errors = [ErrorRecord.log ⟨Msg.errFile "fault" "/b.txt", LogLevel.WARNING⟩] :=
  c1_partial_failure_isolation c1Env (mkCfg baseAuth (some "") none none) ""
    { oauth2_access_token := "tok", oauth2_refresh_token := none,
      app_key := none, app_secret := none }
    { root_namespace_id := "ns" } "tok"
    ["/a.txt"] ["/c.txt"] "/b.txt" "fault" c1D 1
    rfl rfl rfl rfl rfl rfl (by decide)
    (by decide)
    (by
      intro p hp
      rcases List.mem_append.1 hp with h | h
      · obtain rfl := List.mem_singleton.1 h
        rfl
      · obtain rfl := List.mem_singleton.1 h
        rfl)
    (by decide) rfl

/-- Claim C2 (code bug): processing an ineligible path via single-file
`load` does NOT append it to `invalid_files`: line 268 executes
`self.invalid_files.append()` with no argument, a `TypeError` that
propagates out of `load` uncaught (the surrounding handlers catch only
`DropboxException`). -/
theorem c2_ineligible_append_raises_type_error :
    load baseEnv (mkCfg baseAuth none none (some "/b.exe")) initState 1 =
      some (.error (.typeError "list.append() takes exactly one argument (0 given)"),
        applyLogs initState [procLog "/b.exe"]) := rfl

/-- Counterexample to C3: a generic (non-Dropbox) fault raised inside the
docx extraction routine propagates to the caller of `load` instead of
degrading to an empty sequence plus a WARNING error record. -/
theorem c3_extractor_fault_propagates :
    load c3Env (mkCfg baseAuth none none (some "/a.docx")) initState 1 =
      some (.error (.other "boom"), applyLogs initState [procLog "/a.docx"]) := rfl

/-- Claim C3 amended: a fault of the storage SDK's exception type
(`DropboxException`) raised inside the selected extraction routine is
caught by `_load_file`: the file contributes no records and one
WARNING message referencing the path is logged after any messages the
routine emitted; non-Dropbox extractor faults (outside the PDF routine)
propagate. -/
theorem c3_dropbox_extraction_fault_caught (env : DbxEnv) (p e : String)
    (ms : List (Msg × LogLevel))
    (h1 : fileExtension p ∈ ALLOWED_EXTENSIONS) (h2 : fileExtension p ≠ "paper")
    (h3 : (env.spec p).download = .ok ())
    (h4 : runRoutine env p (fileExtension p) (sourceLink p) = (.error (.dropbox e), ms)) :
    loadFileM env p = (.ok [], procLog p :: ms ++ [(Msg.errFile e p, LogLevel.WARNING)]) := by
  simp only [loadFileM, loadFileBody]
  rw [if_pos h1, if_neg h2, h3]
  dsimp only
  rw [h4]
  rfl

/-- Witness for (amended) C3: a docx file whose extraction library raises a
`DropboxException` yields no records and a WARNING message. -/
theorem c3_dropbox_extraction_fault_caught_witness :
    loadFileM c3DbxEnv "/a.docx" =
      (.ok [], procLog "/a.docx" ::
        [] ++ [(Msg.errFile "lib_fault" "/a.docx", LogLevel.WARNING)]) :=
  c3_dropbox_extraction_fault_caught c3DbxEnv "/a.docx" "lib_fault" []
    (by decide) (by decide) rfl rfl

/-- Counterexample to C4: one page listed successfully (containing an
eligible, loadable text file), then the continuation call faults.  `load`
records the folder-scoped error but returns NO records — not the records of
the already-accumulated eligible path, although that path alone loads fine. -/
theorem c4_enum_fault_discards_accumulated_paths :
    load c4Env (mkCfg baseAuth (some "") none none) initState 2 =
      some (.ok [],
        { invalid_files := [],
          errors := [ErrorRecord.folderErr "cursor_fault" ""],
          progress := [⟨Msg.text "Load files from folder path ()", LogLevel.DEBUG⟩] }) ∧
    (loadFileM c4Env "/a.txt").1 = .ok (c1D "/a.txt") :=
  ⟨rfl, rfl⟩

/-- Claim C4 amended: on any listing/pagination fault mid-enumeration,
enumeration of the folder aborts, an error record scoped to the folder path
is appended, and `load` returns the EMPTY record sequence — no documents are
produced for the eligible paths accumulated from the pages already listed
(only their `invalid_files` classifications persist). -/
theorem c4_enumeration_fault_returns_empty
    (env : DbxEnv) (cfg : LoaderConfig) (fp : String)
    (args : DbxArgs) (acct : AccountInfo) (tok : String)
    (j fuel : Nat) (e : String)
    (hargs : mkArgs cfg = some args)
    (hper : env.personalSession args = .ok acct)
    (htok : cfg.auth.access_token = some tok)
    (hteam : env.teamSession tok acct.root_namespace_id = .ok ())
    (hfp : cfg.folder_path = some fp)
    (hok : ∀ i < j, ∃ pg, env.pages i = .ok pg ∧ pg.has_more = true)
    (herr : env.pages j = .error e)
    (hfuel : j < fuel) :
    ∃ stF, load env cfg initState fuel = some (.ok [], stF) ∧
      stF.errors = [ErrorRecord.folderErr e fp] := by
  obtain ⟨stx, heq, herrs⟩ := enumFolder_fault env e j fuel 0 []
    (logMessage initState
      (Msg.text ("Load files from folder path (" ++ fp ++ ")")) LogLevel.DEBUG)
    (by simpa using hok) (by simpa using herr) hfuel
  refine ⟨{ stx with errors := stx.errors ++ [ErrorRecord.folderErr e fp] }, ?_, ?_⟩
  · simp only [load, hargs, hper, htok, hteam, hfp, loadFilesFromFolderPath]
    rw [heq]
  · show stx.errors ++ [ErrorRecord.folderErr e fp] = _
    rw [herrs]
    rfl

/-- Witness for (amended) C4: the two-page run of `c4Env`. -/
theorem c4_enumeration_fault_returns_empty_witness :
    ∃ stF, load c4Env (mkCfg baseAuth (some "") none none) initState 2 =
        some (.ok [], stF) ∧
      stF.errors = [ErrorRecord.folderErr "cursor_fault" ""] :=
  c4_enumeration_fault_returns_empty c4Env (mkCfg baseAuth (some "") none none) ""
    { oauth2_access_token := "tok", oauth2_refresh_token := none,
      app_key := none, app_secret := none }
    { root_namespace_id := "ns" } "tok" 1 2 "cursor_fault"
    rfl rfl rfl rfl rfl
    (by
      intro i hi
      obtain rfl : i = 0 := by omega
      exact ⟨_, rfl, rfl⟩)
    rfl (by omega)

/-- Claim C5: if establishing the personal session or the team session
fails, `load` returns an empty sequence with exactly one error record
appended — and the result is the same for every file/listing/extraction
behavior of the environment, i.e. no download, export, listing or
extraction call is consulted. -/
theorem c5_session_failure_short_circuit
    (env : DbxEnv) (cfg : LoaderConfig) (st : LoaderState) (fuel : Nat)
    (e : String) (args : DbxArgs)
    (spec1 : String → FileSpec) (pages1 : Nat → Except String Page)
    (rtf1 soup1 : String → String)
    (hargs : mkArgs cfg = some args)
    (hfail : env.personalSession args = .error e ∨
      ∃ acct tok, env.personalSession args = .ok acct ∧
        cfg.auth.access_token = some tok ∧
        env.teamSession tok acct.root_namespace_id = .error e) :
    load { env with spec := spec1, pages := pages1, rtfToText := rtf1, soupText := soup1 }
        cfg st fuel =
      some (.ok [], { st with errors := st.errors ++ [ErrorRecord.loadErr e] }) := by
  rcases hfail with h | ⟨acct, tok, h1, h2, h3⟩
  · simp only [load, hargs, h]
  · simp only [load, hargs, h1, h2, h3]

/-- Witness for C5: a personal-session fault short-circuits `load`. -/
theorem c5_session_failure_short_circuit_witness :
    load { c5Env with
        spec := c5Env.spec
        pages := c5Env.pages
        rtfToText := c5Env.rtfToText
        soupText := c5Env.soupText }
      (mkCfg baseAuth (some "") none none) initState 1 =
      some (.ok [], { initState with errors :=
        initState.errors ++ [ErrorRecord.loadErr "expired_access_token"] }) :=
  c5_session_failure_short_circuit c5Env (mkCfg baseAuth (some "") none none) initState 1
    "expired_access_token"
    { oauth2_access_token := "tok", oauth2_refresh_token := none,
      app_key := none, app_secret := none }
    c5Env.spec c5Env.pages c5Env.rtfToText c5Env.soupText
    rfl (Or.inl rfl)

/-- Nulls never survive replacement. -/
theorem replaceNullChar_no_null (s : String) : '\x00' ∉ (replaceNullChar s).toList := by
  intro hmem
  rw [show (replaceNullChar s).toList =
      s.toList.map (fun c => if c = '\x00' then ' ' else c) from rfl] at hmem
  obtain ⟨c, _, hc⟩ := List.mem_map.1 hmem
  by_cases h : c = '\x00'
  · rw [if_pos h] at hc
    exact absurd hc (by decide)
  · rw [if_neg h] at hc
    exact h hc

/-- Claim C6: every record a per-file load returns has no null byte in its
content — each `\x00` produced by extraction was replaced by a space. -/
theorem c6_no_null_bytes (env : DbxEnv) (p : String) (ds : List Doc)
    (h : (loadFileM env p).1 = .ok ds) :
    ∀ d ∈ ds, '\x00' ∉ d.page_content.toList := by
  intro d hd
  by_cases he : fileExtension p ∈ ALLOWED_EXTENSIONS
  · simp only [loadFileM, if_pos he] at h
    rcases hb : loadFileBody env p (fileExtension p) (sourceLink p) with ⟨r, ms⟩
    rw [hb] at h
    cases r with
    | ok ds0 =>
      simp only [] at h
      have hds : ds = ds0.map nullReplaceDoc := by
        cases h
        rfl
      rw [hds] at hd
      obtain ⟨d0, _, hd0⟩ := List.mem_map.1 hd
      rw [← hd0]
      exact replaceNullChar_no_null d0.page_content
    | error ex => exact absurd h (by simp)
  · simp only [loadFileM, if_neg he] at h
    exact absurd h (by simp)

/-- Witness for C6: a text file whose raw content is `"a\x00b"` comes back
as the single record `c6Doc` with content `"a b"`, null-free. -/
theorem c6_no_null_bytes_witness : '\x00' ∉ c6Doc.page_content.toList :=
  c6_no_null_bytes c6Env "/n.txt" [c6Doc] rfl c6Doc (List.mem_singleton.2 rfl)

/-- Counterexample to C7: eligibility is not case-insensitive.  `"/a.PDF"`
differs from the allow-listed `pdf` only in letter case, yet its computed
extension `"PDF"` is outside the allow-list, and folder enumeration files
the path under `invalid_files` instead of the eligible list. -/
theorem c7_uppercase_extension_rejected :
    fileExtension "/a.PDF" ∉ ALLOWED_EXTENSIONS ∧
    fileExtension "/a.pdf" ∈ ALLOWED_EXTENSIONS ∧
    processEntry ([], initState) { isFile := true, name := "a.PDF", path_display := "/a.PDF" } =
      ([], { initState with invalid_files := ["/a.PDF"] }) :=
  ⟨by decide, by decide, rfl⟩

/-- Claim C7 amended: eligibility compares the raw extension (substring
after the last dot of the final path segment), with NO lower-casing,
case-sensitively against the all-lower-case allow-list; hence a path whose
extension contains an upper-case letter is never eligible, and folder
enumeration places it in `invalid_files`. -/
theorem c7_eligibility_case_sensitive (p : String) (paths : List String)
    (st : LoaderState)
    (h : ∃ c ∈ (fileExtension p).toList, c.isUpper = true) :
    fileExtension p ∉ ALLOWED_EXTENSIONS ∧
    processEntry (paths, st) { isFile := true, name := pathName p, path_display := p } =
      (paths, { st with invalid_files := st.invalid_files ++ [p] }) := by
  obtain ⟨c, hc, hup⟩ := h
  have hnot : fileExtension p ∉ ALLOWED_EXTENSIONS := by
    intro hmem
    have hlow : ∀ s ∈ ALLOWED_EXTENSIONS, ∀ ch ∈ s.toList, ch.isUpper = false := by decide
    have hfc := hlow _ hmem c hc
    rw [hup] at hfc
    exact Bool.noConfusion hfc
  have hnot2 : nameExtension (pathName p) ∉ ALLOWED_EXTENSIONS := hnot
  exact ⟨hnot, by simp [processEntry, hnot2]⟩

/-- Witness for (amended) C7 at `"/a.PDF"`. -/
theorem c7_eligibility_case_sensitive_witness :
    fileExtension "/a.PDF" ∉ ALLOWED_EXTENSIONS ∧
    processEntry ([], initState)
        { isFile := true, name := pathName "/a.PDF", path_display := "/a.PDF" } =
      ([], { initState with invalid_files := initState.invalid_files ++ ["/a.PDF"] }) :=
  c7_eligibility_case_sensitive "/a.PDF" [] initState (by decide)

/-- Claim C8: `_load_pdf_file` never raises; with page texts `ps` it yields
exactly `ps.length` records in page order, the `i`-th carrying 1-based
`page` metadata `i + 1`; a reader fault additionally logs a WARNING (via
`_error_logger`) plus a `not_indexed` INFO trace, so a file malformed at
open (`ps = []`) yields zero records and a logged warning instead of
aborting the batch. -/
theorem c8_pdf_page_records (env : DbxEnv) (p source : String) (ps : List String)
    (fault : Option PdfErr) (i : Nat)
    (h : (env.spec p).pdf = { pages := ps, fault := fault }) :
    loadPdfFileM env p source =
      (pdfDocs ps source,
        match fault with
        | none => []
        | some e => [(Msg.errAction (pdfErrMsg e p) "read_pdf" "file", LogLevel.WARNING),
                     (Msg.notIndexed p, LogLevel.INFO)]) ∧
    (pdfDocs ps source).length = ps.length ∧
    (pdfDocs ps source).get? i = (ps.get? i).map fun t =>
      { page_content := t,
        metadata := { source := source, kind := "file", page := some (i + 1) } } := by
  refine ⟨?_, by simp [pdfDocs], ?_⟩
  · simp only [loadPdfFileM, h]
    cases fault <;> rfl
  · simp only [pdfDocs, List.get?_map, List.get?_enum]
    cases ps.get? i <;> rfl

/-- Witness for C8: a two-page PDF yields two records with pages 1 and 2. -/
theorem c8_pdf_page_records_witness :
    loadPdfFileM c8Env "/a.pdf" "src" = (pdfDocs ["page one", "page two"] "src", []) ∧
    (pdfDocs ["page one", "page two"] "src").length = ["page one", "page two"].length ∧
    (pdfDocs ["page one", "page two"] "src").get? 0 =
      (["page one", "page two"].get? 0).map fun t =>
        { page_content := t,
          metadata := { source := "src", kind := "file", page := some (0 + 1) } } :=
  c8_pdf_page_records c8Env "/a.pdf" "src" ["page one", "page two"] none 0 rfl

/-- Claim C9 (code bug): a legacy-keyed auth payload does not behave like a
current-keyed one.  The personal session is built from the legacy token,
but the team-session block reads `auth['access_token']` directly
(line 456), so with only the legacy key present `load` raises `KeyError`
instead of establishing both sessions. -/
theorem c9_legacy_auth_raises_key_error (env : DbxEnv) (cfg : LoaderConfig)
    (st : LoaderState) (fuel : Nat) (args : DbxArgs) (acct : AccountInfo)
    (hargs : mkArgs cfg = some args)
    (htok : cfg.auth.access_token = none)
    (hper : env.personalSession args = .ok acct) :
    load env cfg st fuel = some (.error (.keyError "access_token"), st) := by
  simp only [load, hargs, hper, htok]

/-- Witness for C9: the documented legacy payload `{"access": "tok"}`
crashes `load` with `KeyError` although the personal session succeeded. -/
theorem c9_legacy_auth_raises_key_error_witness :
    load baseEnv (mkCfg legacyAuth (some "") none none) initState 1 =
      some (.error (.keyError "access_token"), initState) :=
  c9_legacy_auth_raises_key_error baseEnv (mkCfg legacyAuth (some "") none none)
    initState 1
    { oauth2_access_token := "tok", oauth2_refresh_token := none,
      app_key := none, app_secret := none }
    { root_namespace_id := "ns" } rfl rfl rfl

/-- Claim C10: with neither `'access'` nor `'access_token'` in the auth
payload, `load` fails with an unhandled exception (`args` is never bound)
for EVERY environment — before any session, listing, download or extraction
call — and leaves the state untouched, rather than recording an error
record and returning an empty sequence. -/
theorem c10_missing_access_keys_unhandled (env : DbxEnv) (cfg : LoaderConfig)
    (st : LoaderState) (fuel : Nat)
    (h1 : cfg.auth.access = none) (h2 : cfg.auth.access_token = none) :
    load env cfg st fuel =
      some (.error (.nameError "cannot access local variable args"), st) := by
  have hargs : mkArgs cfg = none := by
    simp [mkArgs, tokenArg, h1, h2, Option.orElse]
  simp only [load, hargs]

/-- Witness for C10 with the empty auth payload. -/
theorem c10_missing_access_keys_unhandled_witness :
    load baseEnv (mkCfg emptyAuth (some "") none none) initState 1 =
      some (.error (.nameError "cannot access local variable args"), initState) :=
  c10_missing_access_keys_unhandled baseEnv (mkCfg emptyAuth (some "") none none)
    initState 1 rfl rfl

example : fileExtension "/folder/a.pdf" = "pdf" := by decide
example : fileExtension "/a.PDF" = "PDF" := by decide
example : nameExtension ".bashrc" = "" := by decide
example : fileStem "/x/report.pdf" = "report" := by decide
example : sourceLink "/a/b/c.pdf" = "https://www.dropbox.com/home/a/b?preview=c.pdf" := by decide
